import Mathlib

/-!
# Verification of the background-search query orchestrator

Shallow embedding of `src/utils/background_search.ts`: a debounced,
cached, cancellable search orchestrator.  The TypeScript module is
single-threaded and event-loop driven; we model it as a pure state
machine.  Each externally observable occurrence (a public method call,
the debounce timer firing, or the settlement of one dispatched fetch
promise) is a total function on the orchestrator state.  The promise
chain `.then/.catch/.finally` attached to one fetch attempt runs as one
atomic step: between the microtasks of one chain only handler chains of
other attempts can run, and any such stale chain is a no-op under the
sequence guard, so atomicity is faithful.

Result items (`MemorySearchItem`) are opaque to the orchestrator (its
type lives outside the embedded module), so they are modelled by an
opaque record.  Callbacks (`onStart`, `onSuccess`, `onError`,
`onFinally`) and invocations of the injected `fetch` are modelled as an
append-only event log; log entries carry the attempt's captured
sequence number as ghost instrumentation identifying the attempt.
-/

namespace BackgroundSearch

/-- Opaque search-result item; the orchestrator never inspects items. -/
structure MemorySearchItem where
  id : Nat
  deriving DecidableEq, Repr

/-- A result list, as delivered by the injected fetch. -/
abbrev ResultList := List MemorySearchItem

/-- A JavaScript error as observed at the orchestrator boundary: only
its `name` is inspected (`err.name === 'AbortError'`). -/
structure JsError where
  name : String
  deriving DecidableEq, Repr

/-- Embeds `normalizeQuery`'s `.replace(/\s+/g, ' ')`: each maximal run
of whitespace becomes a single space.  The flag records whether the
previous character was whitespace. -/
def squashWsAux : Bool → List Char → List Char
  | _, [] => []
  | prevWs, c :: cs =>
    if c.isWhitespace then
      if prevWs then squashWsAux true cs else ' ' :: squashWsAux true cs
    else c :: squashWsAux false cs

/-- JavaScript `String.prototype.trim` on a character list. -/
def jsTrim (l : List Char) : List Char :=
  ((l.dropWhile Char.isWhitespace).reverse.dropWhile Char.isWhitespace).reverse

/-- Embeds `normalizeQuery(s)`: falsy input gives the empty string,
otherwise trim, collapse whitespace runs to single spaces, lowercase. -/
def normalizeQuery (s : String) : String :=
  if s = "" then ""
  else String.mk ((squashWsAux false (jsTrim s.data)).map Char.toLower)

/-- A cache entry: write timestamp and the stored result. -/
structure Entry where
  ts : Nat
  result : ResultList
  deriving DecidableEq, Repr

/-- The cache `Map`, as an association list with unique keys. -/
abbrev Cache := List (String × Entry)

/-- `Map.get`. -/
def cacheGet (m : Cache) (k : String) : Option Entry :=
  (m.find? (fun p => p.1 == k)).map (·.2)

/-- `Map.delete`. -/
def cacheDelete (m : Cache) (k : String) : Cache :=
  m.filter (fun p => p.1 != k)

/-- `Map.set` (replaces any existing binding of the key). -/
def cacheSet (m : Cache) (k : String) (v : Entry) : Cache :=
  (k, v) :: cacheDelete m k

/-- One dispatched, not yet settled fetch attempt: the sequence number
captured as `mySeq`, the normalized query, and the identity of the
`AbortController` created for it. -/
structure Attempt where
  mySeq : Nat
  norm : String
  token : Nat
  deriving DecidableEq, Repr

/-- An entry of the observable event log: callbacks fired and fetch
invocations.  `att` is the ghost attempt identifier (the attempt's
captured sequence number); a cache-hit success carries `none`. -/
inductive Ev where
  | start (att : Nat) (q : String)
  | success (att : Option Nat) (q : String) (r : ResultList) (fromCache : Bool)
  | error (att : Nat) (q : String) (e : JsError)
  | fin (att : Nat) (q : String)
  | fetched (att : Nat) (q : String)
  deriving DecidableEq, Repr

/-- The orchestrator's mutable closure state, plus ghost fields:
`nextToken`/`abortedTokens` give `AbortController`s an identity and an
aborted flag, `now` is the model clock read by `Date.now()`, `pending`
holds dispatched unsettled attempts, and `log` is the event log. -/
structure St where
  minLength : Nat
  debounceMs : Nat
  cacheTTL : Nat
  useCache : Bool
  refreshOnCache : Bool
  latestText : String
  lastCompletedQuery : String
  lastResult : Option ResultList
  lastSearchedQuery : String
  inFlightQuery : Option String
  abortController : Option Nat
  nextToken : Nat
  abortedTokens : List Nat
  timerPending : Bool
  seq : Nat
  cache : Cache
  now : Nat
  pending : List Attempt
  log : List Ev
  deriving DecidableEq, Repr

/-- Appends one observable event to the log. -/
def logEv (s : St) (e : Ev) : St :=
  { s with log := s.log ++ [e] }

/-- Embeds `getCached`: no read when `useCache` is off; an entry older
than `cacheTTL` is deleted and reported absent (lazy eviction). -/
def getCached (s : St) (normQuery : String) : St × Option ResultList :=
  if s.useCache = false then (s, none)
  else
    match cacheGet s.cache normQuery with
    | none => (s, none)
    | some v =>
      if s.cacheTTL < s.now - v.ts then
        ({ s with cache := cacheDelete s.cache normQuery }, none)
      else (s, some v.result)

/-- Embeds `setCached`: stores the result stamped with the clock. -/
def setCached (s : St) (normQuery : String) (result : ResultList) : St :=
  { s with cache := cacheSet s.cache normQuery ⟨s.now, result⟩ }

/-- Embeds `clearTimer`. -/
def clearTimer (s : St) : St :=
  { s with timerPending := false }

/-- Embeds `clearCache`. -/
def clearCache (s : St) : St :=
  { s with cache := [] }

/-- Embeds `cancel`: clears the timer, aborts the current controller if
any, and clears the in-flight bookkeeping.  `seq` is not changed. -/
def cancel (s : St) : St :=
  let s1 := clearTimer s
  let s2 :=
    match s1.abortController with
    | some tok => { s1 with abortedTokens := tok :: s1.abortedTokens }
    | none => s1
  { s2 with inFlightQuery := none, abortController := none }

/-- Embeds the dispatch tail of `run` (from the in-flight dedup check
on): dedup on the identical in-flight query, abort a different in-flight
query's controller, then mark in-flight, create a fresh controller,
capture `mySeq := ++seq`, fire `onStart`, and invoke the injected fetch
(recorded as a `fetched` event and a pending attempt). -/
def dispatch (s : St) (norm : String) : St :=
  if s.inFlightQuery = some norm then s
  else
    let s1 :=
      match s.inFlightQuery, s.abortController with
      | some _, some tok => { s with abortedTokens := tok :: s.abortedTokens }
      | _, _ => s
    let tok := s1.nextToken
    let s2 := { s1 with
      inFlightQuery := some norm
      abortController := some tok
      nextToken := tok + 1
      seq := s1.seq + 1 }
    let s3 := logEv (logEv s2 (.start s2.seq norm)) (.fetched s2.seq norm)
    { s3 with pending := s3.pending ++ [⟨s2.seq, norm, tok⟩] }

/-- Embeds `run(query)`: normalize (falling back to `latestText`),
length gate, cache lookup (a hit fires `onSuccess(..., fromCache:=true)`
and stops unless `refreshOnCache`), then dispatch. -/
def run (s : St) (query : Option String) : St :=
  let raw := query.getD s.latestText
  let norm := normalizeQuery raw
  if norm = "" ∨ norm.length < s.minLength then s
  else
    let gc := getCached s norm
    match gc.2 with
    | some cached =>
      let s1 := logEv gc.1 (.success none norm cached true)
      if s1.refreshOnCache then dispatch s1 norm else s1
    | none => dispatch gc.1 norm

/-- `|a - b|` on naturals, embedding `Math.abs(a - b)`. -/
def natDiff (a b : Nat) : Nat :=
  if a ≤ b then b - a else a - b

/-- JavaScript `String.prototype.startsWith`. -/
def jsStartsWith (s pre : String) : Bool :=
  pre.data.isPrefixOf s.data

/-- JavaScript `String.prototype.slice(0, n)` (for `0 ≤ n`). -/
def jsSlice (s : String) (n : Nat) : String :=
  ⟨s.data.take n⟩

/-- Embeds the near-duplicate filter inside `schedule`: skip when the
length difference to the last dispatched query is at most 1 and one
string is a prefix of the other (via `startsWith`/`slice`). -/
def nearDupSkip (norm lastQ : String) : Bool :=
  if lastQ ≠ "" ∧ norm ≠ "" then
    if natDiff norm.length lastQ.length ≤ 1 ∧ 0 < norm.length ∧ 0 < lastQ.length then
      let shorter := if norm.length < lastQ.length then norm else lastQ
      let longer := if lastQ.length ≤ norm.length then norm else lastQ
      jsStartsWith longer shorter || jsStartsWith shorter (jsSlice longer shorter.length)
    else false
  else false

/-- Embeds `schedule`: clear any pending timer, length gate, exact
duplicate skip (last dispatched or in-flight query), near-duplicate
skip, then arm the debounce timer. -/
def schedule (s : St) : St :=
  let s1 := clearTimer s
  let norm := normalizeQuery s1.latestText
  if norm = "" ∨ norm.length < s1.minLength then s1
  else if norm = s1.lastSearchedQuery ∨ s1.inFlightQuery = some norm then s1
  else if nearDupSkip norm s1.lastSearchedQuery then s1
  else { s1 with timerPending := true }

/-- Embeds `setText`: record `latestText` (null/undefined becomes the
empty string) and reschedule. -/
def setText (s : St) (text : Option String) : St :=
  schedule { s with latestText := text.getD "" }

/-- Embeds `runImmediate`: optionally overwrite `latestText`, cancel
any pending timer, and run synchronously. -/
def runImmediate (s : St) (text : Option String) : St :=
  let s1 :=
    match text with
    | some t => { s with latestText := t }
    | none => s
  run (clearTimer s1) (some s1.latestText)

/-- The debounce timer firing: only possible while armed; clears the
timer handle and calls `run(latestText)`. -/
def timerFire (s : St) : St :=
  if s.timerPending then run (clearTimer s) (some s.latestText) else s

/-- The model clock advancing between events (`Date.now()` source). -/
def tick (s : St) (d : Nat) : St :=
  { s with now := s.now + d }

/-- The outcome with which a dispatched fetch promise settles. -/
inductive Outcome where
  | ok (r : ResultList)
  | err (e : JsError)
  deriving DecidableEq, Repr

/-- The `.then` handler of an attempt's promise chain: the sequence
guard (`inFlightQuery !== norm || mySeq !== seq`) discards a
superseded response; otherwise write the cache, update
`lastCompletedQuery`/`lastSearchedQuery`/`lastResult`, fire
`onSuccess(..., fromCache:=false)`. -/
def thenOk (s : St) (a : Attempt) (r : ResultList) : St :=
  if s.inFlightQuery = some a.norm ∧ a.mySeq = s.seq then
    logEv
      { setCached s a.norm r with
        lastCompletedQuery := a.norm
        lastSearchedQuery := a.norm
        lastResult := some r }
      (.success (some a.mySeq) a.norm r false)
  else s

/-- The `.catch` handler: compute the aborted flag from the current
controller's signal and the error's name, discard when superseded by
sequence number, and fire `onError` only for non-abort rejections. -/
def catchStep (s : St) (a : Attempt) (e : JsError) : St :=
  let aborted :=
    (match s.abortController with
     | some tok => s.abortedTokens.contains tok
     | none => false) || (e.name == "AbortError")
  if a.mySeq = s.seq then
    if aborted then s else logEv s (.error a.mySeq a.norm e)
  else s

/-- The `.finally` handler: when the attempt is still current, clear
the in-flight slot and controller, then fire `onFinally`. -/
def finallyStep (s : St) (a : Attempt) : St :=
  if a.mySeq = s.seq then
    logEv { s with inFlightQuery := none, abortController := none }
      (.fin a.mySeq a.norm)
  else s

/-- Settlement of the `i`-th pending attempt's promise with outcome
`o`: removes the attempt and runs its `.then`/`.catch` and `.finally`
handlers atomically. -/
def settle (s : St) (i : Nat) (o : Outcome) : St :=
  match s.pending.get? i, o with
  | none, _ => s
  | some a, .ok r =>
    finallyStep (thenOk { s with pending := s.pending.eraseIdx i } a r) a
  | some a, .err e =>
    finallyStep (catchStep { s with pending := s.pending.eraseIdx i } a e) a

/-- Raw constructor options: `fetch` records whether a function value
was supplied; absent numeric/boolean options are `none` (the runtime
`typeof` checks fall back to the defaults). -/
structure InitOptions where
  fetch : Bool
  minLength : Option Nat
  debounceMs : Option Nat
  cacheTTL : Option Nat
  useCache : Option Bool
  refreshOnCache : Option Bool
  deriving DecidableEq, Repr

/-- The closure state set up by a successful `createOrchestrator`. -/
def initSt (o : InitOptions) : St where
  minLength := o.minLength.getD 3
  debounceMs := o.debounceMs.getD 75
  cacheTTL := o.cacheTTL.getD 60000
  useCache := o.useCache.getD true
  refreshOnCache := o.refreshOnCache.getD false
  latestText := ""
  lastCompletedQuery := ""
  lastResult := none
  lastSearchedQuery := ""
  inFlightQuery := none
  abortController := none
  nextToken := 0
  abortedTokens := []
  timerPending := false
  seq := 0
  cache := []
  now := 0
  pending := []
  log := []

/-- Embeds `createOrchestrator(options)`: throws (modelled as
`Except.error`) exactly when `options?.fetch` is not a function —
including a null/undefined `options` (`none`); otherwise returns the
fresh closure state.  Every public operation of the model is a total
function, so this is the interface's only throwing path. -/
def createOrchestrator (o : Option InitOptions) : Except String St :=
  match o with
  | none => .error "createOrchestrator requires options.fetch(query, \x7b signal \x7d)"
  | some opts =>
    if opts.fetch then .ok (initSt opts)
    else .error "createOrchestrator requires options.fetch(query, \x7b signal \x7d)"

/-- Embeds `getState` (the `cacheSize` field of the snapshot). -/
def cacheSize (s : St) : Nat :=
  s.cache.length

/-- Is this log entry an `onSuccess` callback? -/
def isSuccessEv : Ev → Bool
  | .success .. => true
  | _ => false

/-- Is this log entry an `onError` callback? -/
def isErrorEv : Ev → Bool
  | .error .. => true
  | _ => false

/-- Is this log entry an `onFinally` callback? -/
def isFinEv : Ev → Bool
  | .fin .. => true
  | _ => false

/-- The `onSuccess` callbacks fired so far, in order. -/
def successEvents (s : St) : List Ev :=
  s.log.filter isSuccessEv

/-- The `onError` callbacks fired so far, in order. -/
def errorEvents (s : St) : List Ev :=
  s.log.filter isErrorEv

/-- The `onFinally` callbacks fired so far, in order. -/
def finEvents (s : St) : List Ev :=
  s.log.filter isFinEv

/-- How many `onFinally` callbacks the attempt with captured sequence
number `att` has fired. -/
def finCount (s : St) (att : Nat) : Nat :=
  (s.log.filter fun e =>
    match e with
    | .fin a _ => a == att
    | _ => false).length

/-- The queries passed to the injected `fetch`, in dispatch order. -/
def fetchedQueries (s : St) : List String :=
  s.log.filterMap fun e =>
    match e with
    | .fetched _ q => some q
    | _ => none

/-- Was an attempt with captured sequence number `att` dispatched (its
fetch invoked)? -/
def wasDispatched (s : St) (att : Nat) : Bool :=
  s.log.any fun e =>
    match e with
    | .fetched a _ => a == att
    | _ => false

/-! ## Concrete runs used by witnesses and counterexamples -/

/-- A fresh orchestrator with default options. -/
def sInit : St := initSt ⟨true, none, none, none, none, none⟩

/-- After `runImmediate("abcd")`: one in-flight attempt (seq 1). -/
def sA : St := runImmediate sInit (some "abcd")

/-- After a second `runImmediate("wxyz")`: attempt 1 superseded
(aborted), attempt 2 in flight (seq 2), both promises unsettled. -/
def sAB : St := runImmediate sA (some "wxyz")

/-- After `runImmediate("abcd")` and its successful settlement: cache
holds `"abcd"`, `lastSearchedQuery = "abcd"`, nothing in flight. -/
def sDone : St := settle sA 0 (.ok [⟨1⟩])

/-- After a further completed search for `"mnop"`:
`lastSearchedQuery = "mnop"`, cache holds both queries at ts 0. -/
def sDone2 : St := settle (runImmediate sDone (some "mnop")) 0 (.ok [⟨2⟩])

/-! ## Helper lemmas -/

/-- `logEv` only appends to the log. -/
theorem logEv_fields (s : St) (e : Ev) :
    (logEv s e).seq = s.seq ∧ (logEv s e).pending = s.pending ∧
    (logEv s e).inFlightQuery = s.inFlightQuery ∧
    (logEv s e).log = s.log ++ [e] := by
  simp [logEv]

/-- `thenOk` never changes `seq` or `pending`, and adds no
`onFinally`, `onError`, or fetch events. -/
theorem thenOk_frame (s : St) (a : Attempt) (r : ResultList) :
    (thenOk s a r).seq = s.seq ∧ (thenOk s a r).pending = s.pending ∧
    finEvents (thenOk s a r) = finEvents s ∧
    errorEvents (thenOk s a r) = errorEvents s ∧
    fetchedQueries (thenOk s a r) = fetchedQueries s := by
  unfold thenOk
  split
  · simp [logEv, setCached, finEvents, errorEvents, fetchedQueries, isFinEv, isErrorEv]
  · simp

/-- `catchStep` never changes `seq`, `pending`, or `inFlightQuery`,
and adds no `onFinally`, `onSuccess`, or fetch events. -/
theorem catchStep_frame (s : St) (a : Attempt) (e : JsError) :
    (catchStep s a e).seq = s.seq ∧ (catchStep s a e).pending = s.pending ∧
    (catchStep s a e).inFlightQuery = s.inFlightQuery ∧
    finEvents (catchStep s a e) = finEvents s ∧
    successEvents (catchStep s a e) = successEvents s ∧
    fetchedQueries (catchStep s a e) = fetchedQueries s := by
  unfold catchStep
  cases h : s.abortController <;>
    simp only [h] <;>
      split_ifs <;>
        simp [logEv, finEvents, successEvents, fetchedQueries, isFinEv, isSuccessEv]

/-- `finallyStep` of a stale attempt is the identity; of a current
attempt it clears the in-flight slot and appends one `onFinally`. -/
theorem finallyStep_cases (s : St) (a : Attempt) :
    (a.mySeq ≠ s.seq → finallyStep s a = s) ∧
    (a.mySeq = s.seq →
      (finallyStep s a).inFlightQuery = none ∧
      (finallyStep s a).pending = s.pending ∧
      (finallyStep s a).cache = s.cache ∧
      (finallyStep s a).log = s.log ++ [.fin a.mySeq a.norm]) := by
  unfold finallyStep
  constructor
  · intro h
    rw [if_neg h]
  · intro h
    rw [if_pos h]
    simp [logEv]

/-- A stale attempt's `.then` handler is a no-op. -/
theorem thenOk_stale (s : St) (a : Attempt) (r : ResultList)
    (h : a.mySeq ≠ s.seq) : thenOk s a r = s := by
  unfold thenOk
  rw [if_neg (fun hc => h hc.2)]

/-- A stale attempt's `.catch` handler is a no-op. -/
theorem catchStep_stale (s : St) (a : Attempt) (e : JsError)
    (h : a.mySeq ≠ s.seq) : catchStep s a e = s := by
  unfold catchStep
  rw [if_neg h]

/-- A stale attempt's `.finally` handler is a no-op. -/
theorem finallyStep_stale (s : St) (a : Attempt)
    (h : a.mySeq ≠ s.seq) : finallyStep s a = s := by
  unfold finallyStep
  rw [if_neg h]

/-- Settling a superseded attempt (captured sequence differs from the
current counter) only removes it from the pending set: no state field
and no log entry changes, whatever the outcome. -/
theorem settle_stale_eq (s : St) (i : Nat) (a : Attempt) (o : Outcome)
    (hget : s.pending.get? i = some a) (hstale : a.mySeq ≠ s.seq) :
    settle s i o = { s with pending := s.pending.eraseIdx i } := by
  have hs1 : a.mySeq ≠ ({ s with pending := s.pending.eraseIdx i } : St).seq := hstale
  cases o with
  | ok r =>
    unfold settle
    rw [hget]
    dsimp only
    rw [thenOk_stale _ _ _ hs1, finallyStep_stale _ _ hs1]
  | err e =>
    unfold settle
    rw [hget]
    dsimp only
    rw [catchStep_stale _ _ _ hs1, finallyStep_stale _ _ hs1]

/-- `finallyStep` adds no `onError` events. -/
theorem finallyStep_errorEvents (s : St) (a : Attempt) :
    errorEvents (finallyStep s a) = errorEvents s := by
  unfold finallyStep
  split
  · simp [logEv, errorEvents, isErrorEv, List.filter_append]
  · rfl

/-- A rejection named `AbortError` makes the whole `.catch` handler a
no-op: the `aborted` flag is true, so `onError` is skipped. -/
theorem catchStep_abortError (s : St) (a : Attempt) (e : JsError)
    (he : e.name = "AbortError") : catchStep s a e = s := by
  unfold catchStep
  have hb : (e.name == "AbortError") = true := by simp [he]
  simp [hb]

/-- States with the same log have the same fetched queries. -/
theorem fetchedQueries_of_log {s1 s2 : St} (h : s1.log = s2.log) :
    fetchedQueries s1 = fetchedQueries s2 := by
  unfold fetchedQueries
  rw [h]

/-- `getCached` returns the input state unchanged or with the looked-up
key lazily evicted; it never logs, never touches the in-flight slot. -/
theorem getCached_fst (s : St) (nq : String) :
    (getCached s nq).1 = s ∨
    (getCached s nq).1 = { s with cache := cacheDelete s.cache nq } := by
  unfold getCached
  split_ifs with h
  · exact Or.inl rfl
  · cases hc : cacheGet s.cache nq with
    | none => exact Or.inl rfl
    | some v =>
      dsimp only
      split_ifs with h2
      · exact Or.inr rfl
      · exact Or.inl rfl

/-- The state component of `getCached` keeps the log. -/
theorem getCached_fst_log (s : St) (nq : String) :
    ((getCached s nq).1).log = s.log := by
  rcases getCached_fst s nq with h | h <;> rw [h]

/-- The state component of `getCached` keeps the in-flight slot. -/
theorem getCached_fst_inFlight (s : St) (nq : String) :
    ((getCached s nq).1).inFlightQuery = s.inFlightQuery := by
  rcases getCached_fst s nq with h | h <;> rw [h]

/-- A cache miss (no stored entry) reads as absent without mutation. -/
theorem getCached_miss (s : St) (nq : String)
    (hc : cacheGet s.cache nq = none) : getCached s nq = (s, none) := by
  unfold getCached
  split_ifs with h
  · rfl
  · rw [hc]

/-- An entry written more than `cacheTTL` ago reads as absent. -/
theorem getCached_expired (s : St) (nq : String) (v : Entry)
    (hc : cacheGet s.cache nq = some v) (hexp : s.cacheTTL < s.now - v.ts) :
    (getCached s nq).2 = none := by
  unfold getCached
  split_ifs with h
  · rfl
  · rw [hc]
    dsimp only
    rw [if_pos hexp]

/-- A stored entry within TTL is a hit and mutates nothing. -/
theorem getCached_hit (s : St) (nq : String) (v : Entry)
    (huse : s.useCache = true) (hc : cacheGet s.cache nq = some v)
    (hfresh : ¬ s.cacheTTL < s.now - v.ts) :
    getCached s nq = (s, some v.result) := by
  unfold getCached
  rw [if_neg (by simp [huse]), hc]
  dsimp only
  rw [if_neg hfresh]

/-- With nothing in flight, `dispatch` always invokes the injected
fetch with exactly the given query. -/
theorem dispatch_none (s : St) (nq : String) (hfl : s.inFlightQuery = none) :
    fetchedQueries (dispatch s nq) = fetchedQueries s ++ [nq] := by
  unfold dispatch
  rw [if_neg (by simp [hfl]), hfl]
  cases hab : s.abortController <;>
    simp [logEv, fetchedQueries, List.filterMap_append]

/-- `dispatch` adds at most one fetch invocation, carrying the given
query. -/
theorem dispatch_fetched (s : St) (nq : String) :
    fetchedQueries (dispatch s nq) = fetchedQueries s ∨
    fetchedQueries (dispatch s nq) = fetchedQueries s ++ [nq] := by
  unfold dispatch
  split_ifs with h
  · exact Or.inl rfl
  · right
    cases hfl : s.inFlightQuery <;> cases hab : s.abortController <;>
      simp [logEv, fetchedQueries, List.filterMap_append]

/-- `run` preserves the debounce timer flag. -/
theorem run_timerPending (s : St) (q : Option String) :
    (run s q).timerPending = s.timerPending := by
  unfold run
  dsimp only
  split_ifs with h
  · rfl
  · cases hgc : (getCached s (normalizeQuery (q.getD s.latestText))).2 with
    | none =>
      dsimp only
      have hd : ∀ s' : St, (dispatch s' (normalizeQuery (q.getD s.latestText))).timerPending
          = s'.timerPending := by
        intro s'
        unfold dispatch
        split_ifs with h2
        · rfl
        · cases hfl : s'.inFlightQuery <;> cases hab : s'.abortController <;>
            simp [logEv]
      rw [hd]
      rcases getCached_fst s (normalizeQuery (q.getD s.latestText)) with h3 | h3 <;> rw [h3]
    | some cached =>
      dsimp only
      have hd : ∀ s' : St, (dispatch s' (normalizeQuery (q.getD s.latestText))).timerPending
          = s'.timerPending := by
        intro s'
        unfold dispatch
        split_ifs with h2
        · rfl
        · cases hfl : s'.inFlightQuery <;> cases hab : s'.abortController <;>
            simp [logEv]
      split_ifs with h4
      · rw [hd]
        rcases getCached_fst s (normalizeQuery (q.getD s.latestText)) with h3 | h3 <;>
          simp [h3, logEv]
      · rcases getCached_fst s (normalizeQuery (q.getD s.latestText)) with h3 | h3 <;>
          simp [h3, logEv]

/-- `run` invokes the injected fetch at most once, and only with the
normalized query it was given (or the latest text). -/
theorem run_fetched (s : St) (q : Option String) :
    fetchedQueries (run s q) = fetchedQueries s ∨
    fetchedQueries (run s q) = fetchedQueries s ++ [normalizeQuery (q.getD s.latestText)] := by
  unfold run
  dsimp only
  split_ifs with h
  · exact Or.inl rfl
  · have hlog : fetchedQueries ((getCached s (normalizeQuery (q.getD s.latestText))).1) =
        fetchedQueries s :=
      fetchedQueries_of_log (getCached_fst_log s _)
    cases hgc : (getCached s (normalizeQuery (q.getD s.latestText))).2 with
    | none =>
      dsimp only
      rcases dispatch_fetched ((getCached s (normalizeQuery (q.getD s.latestText))).1)
          (normalizeQuery (q.getD s.latestText)) with h2 | h2 <;> rw [h2, hlog]
      · exact Or.inl rfl
      · exact Or.inr rfl
    | some cached =>
      dsimp only
      have hlog2 : fetchedQueries
          (logEv ((getCached s (normalizeQuery (q.getD s.latestText))).1)
            (.success none (normalizeQuery (q.getD s.latestText)) cached true)) =
          fetchedQueries s := by
        unfold fetchedQueries logEv at *
        simp only [List.filterMap_append]
        simp [hlog]
      split_ifs with h4
      · rcases dispatch_fetched
            (logEv ((getCached s (normalizeQuery (q.getD s.latestText))).1)
              (.success none (normalizeQuery (q.getD s.latestText)) cached true))
            (normalizeQuery (q.getD s.latestText)) with h2 | h2 <;> rw [h2, hlog2]
        · exact Or.inl rfl
        · exact Or.inr rfl
      · exact Or.inl hlog2

/-- When the length gate passes, the cache reads as absent, and nothing
is in flight, `run` dispatches exactly one fetch for the normalized
query. -/
theorem run_dispatches (s : St) (q : Option String)
    (hne : normalizeQuery (q.getD s.latestText) ≠ "")
    (hlen : s.minLength ≤ (normalizeQuery (q.getD s.latestText)).length)
    (hmiss : (getCached s (normalizeQuery (q.getD s.latestText))).2 = none)
    (hfl : s.inFlightQuery = none) :
    fetchedQueries (run s q) = fetchedQueries s ++ [normalizeQuery (q.getD s.latestText)] := by
  unfold run
  dsimp only
  rw [if_neg (by push_neg; exact ⟨hne, hlen⟩)]
  rw [hmiss]
  dsimp only
  rw [dispatch_none _ _ (by rw [getCached_fst_inFlight]; exact hfl)]
  rw [fetchedQueries_of_log (getCached_fst_log s _)]

/-- `schedule` never fires a callback, never dispatches, and keeps
`latestText`: it only manipulates the debounce timer flag. -/
theorem schedule_frame (s : St) :
    (schedule s).log = s.log ∧ (schedule s).pending = s.pending ∧
    (schedule s).latestText = s.latestText := by
  unfold schedule clearTimer
  dsimp only
  split_ifs <;> exact ⟨rfl, rfl, rfl⟩

/-! ## Claim theorems -/

/-- C1: every dispatched fetch attempt that has been superseded (its
captured sequence number differs from the current counter when its
promise settles) resolves without mutating `lastResult` or
`lastCompletedQuery` and without firing `onSuccess`, whatever the
outcome — and since the statement quantifies over arbitrary states,
this holds regardless of the order in which attempts settle. -/
theorem claim1_superseded_settlement_is_silent (s : St) (i : Nat) (a : Attempt)
    (o : Outcome) (hget : s.pending.get? i = some a) (hstale : a.mySeq ≠ s.seq) :
    (settle s i o).lastResult = s.lastResult ∧
    (settle s i o).lastCompletedQuery = s.lastCompletedQuery ∧
    successEvents (settle s i o) = successEvents s := by
  rw [settle_stale_eq s i a o hget hstale]
  exact ⟨rfl, rfl, rfl⟩

/-- Witness for C1: attempt 1 (`"abcd"`) superseded by attempt 2
(`"wxyz"`); its successful settlement changes nothing observable. -/
theorem claim1_superseded_settlement_is_silent_witness :
    sAB.pending.get? 0 = some ⟨1, "abcd", 0⟩ ∧ (Attempt.mk 1 "abcd" 0).mySeq ≠ sAB.seq ∧
    ((settle sAB 0 (.ok [⟨5⟩])).lastResult = sAB.lastResult ∧
     (settle sAB 0 (.ok [⟨5⟩])).lastCompletedQuery = sAB.lastCompletedQuery ∧
     successEvents (settle sAB 0 (.ok [⟨5⟩])) = successEvents sAB) :=
  ⟨by decide, by decide,
   claim1_superseded_settlement_is_silent sAB 0 ⟨1, "abcd", 0⟩ (.ok [⟨5⟩])
     (by decide) (by decide)⟩

/-- C2 counterexample: attempt 1 (`"abcd"`) is dispatched (its fetch
invoked), then superseded by attempt 2 before settling; when its
promise settles it is removed from the pending set with zero
`onFinally` callbacks ever fired for it — refuting "onFinally is fired
exactly once per dispatched attempt, including attempts superseded by
a newer dispatch before they settle". -/
theorem claim2_counterexample :
    wasDispatched (settle sAB 0 (.ok [⟨5⟩])) 1 = true ∧
    finCount (settle sAB 0 (.ok [⟨5⟩])) 1 = 0 ∧
    (settle sAB 0 (.ok [⟨5⟩])).pending = [⟨2, "wxyz", 1⟩] := by decide

/-- C2 (amended): for every dispatched attempt that is still current
when its promise settles (captured sequence equals the counter),
`onFinally(q)` fires exactly once in that settlement, after the
in-flight slot is cleared, on both the success and the failure path;
a superseded attempt fires no `onFinally` (see the counterexample). -/
theorem claim2_finally_once_for_current (s : St) (i : Nat) (a : Attempt)
    (o : Outcome) (hget : s.pending.get? i = some a) (hcur : a.mySeq = s.seq) :
    (settle s i o).inFlightQuery = none ∧
    (settle s i o).pending = s.pending.eraseIdx i ∧
    finEvents (settle s i o) = finEvents s ++ [.fin a.mySeq a.norm] := by
  cases o with
  | ok r =>
    unfold settle
    rw [hget]
    dsimp only
    have hf := thenOk_frame { s with pending := s.pending.eraseIdx i } a r
    have hcur2 : a.mySeq = (thenOk { s with pending := s.pending.eraseIdx i } a r).seq := by
      rw [hf.1]; exact hcur
    have hfs := (finallyStep_cases _ a).2 hcur2
    refine ⟨hfs.1, ?_, ?_⟩
    · rw [hfs.2.1, hf.2.1]
    · show (finallyStep _ a).log.filter isFinEv = _
      rw [hfs.2.2.2, List.filter_append]
      have h2 : finEvents (thenOk { s with pending := s.pending.eraseIdx i } a r) =
          finEvents s := hf.2.2.1
      unfold finEvents at h2
      rw [h2]
      simp [isFinEv, finEvents]
  | err e =>
    unfold settle
    rw [hget]
    dsimp only
    have hf := catchStep_frame { s with pending := s.pending.eraseIdx i } a e
    have hcur2 : a.mySeq = (catchStep { s with pending := s.pending.eraseIdx i } a e).seq := by
      rw [hf.1]; exact hcur
    have hfs := (finallyStep_cases _ a).2 hcur2
    refine ⟨hfs.1, ?_, ?_⟩
    · rw [hfs.2.1, hf.2.1]
    · show (finallyStep _ a).log.filter isFinEv = _
      rw [hfs.2.2.2, List.filter_append]
      have h2 : finEvents (catchStep { s with pending := s.pending.eraseIdx i } a e) =
          finEvents s := hf.2.2.2.1
      unfold finEvents at h2
      rw [h2]
      simp [isFinEv, finEvents]

/-- Witness for the amended C2: the current attempt 2 settles
successfully, clearing the slot and firing one `onFinally`. -/
theorem claim2_finally_once_for_current_witness :
    sAB.pending.get? 1 = some ⟨2, "wxyz", 1⟩ ∧ (Attempt.mk 2 "wxyz" 1).mySeq = sAB.seq ∧
    ((settle sAB 1 (.ok [⟨9⟩])).inFlightQuery = none ∧
     (settle sAB 1 (.ok [⟨9⟩])).pending = sAB.pending.eraseIdx 1 ∧
     finEvents (settle sAB 1 (.ok [⟨9⟩])) = finEvents sAB ++ [.fin 2 "wxyz"]) :=
  ⟨by decide, by decide,
   claim2_finally_once_for_current sAB 1 ⟨2, "wxyz", 1⟩ (.ok [⟨9⟩])
     (by decide) (by decide)⟩

/-- C5: a dispatched attempt whose promise rejects because its
cancellation token was signaled — observable at the orchestrator
boundary as a rejection named `AbortError`, whether the signal came
from `cancel()` or from being superseded by a different query — never
fires `onError`: the rejection is swallowed. -/
theorem claim5_abort_rejection_swallowed (s : St) (i : Nat) (e : JsError)
    (he : e.name = "AbortError") :
    errorEvents (settle s i (.err e)) = errorEvents s := by
  cases hget : s.pending.get? i with
  | none =>
    unfold settle
    rw [hget]
  | some a =>
    unfold settle
    rw [hget]
    dsimp only
    rw [catchStep_abortError _ _ _ he, finallyStep_errorEvents]
    rfl

/-- Witness for C5: the superseded attempt 1's fetch rejects with an
`AbortError` (its token was aborted when attempt 2 superseded it); no
`onError` is fired. -/
theorem claim5_abort_rejection_swallowed_witness :
    (JsError.mk "AbortError").name = "AbortError" ∧
    errorEvents (settle sAB 0 (.err ⟨"AbortError"⟩)) = errorEvents sAB :=
  ⟨rfl, claim5_abort_rejection_swallowed sAB 0 ⟨"AbortError"⟩ rfl⟩

/-- C6: with `useCache` on, `refreshOnCache` off, and a cache entry for
the normalized query written less than `cacheTTL` ago, `run(q)` is
exactly one `onSuccess(q, cachedResult, fromCache := true)`: the state
is otherwise unchanged — in particular the injected fetch is not
invoked and the in-flight state is untouched.  (The length-gate
hypotheses are the enabling conditions for `run` to reach the cache
lookup at all.) -/
theorem claim6_cache_hit_short_circuit (s : St) (q : String) (v : Entry)
    (huse : s.useCache = true) (href : s.refreshOnCache = false)
    (hne : normalizeQuery q ≠ "")
    (hlen : s.minLength ≤ (normalizeQuery q).length)
    (hc : cacheGet s.cache (normalizeQuery q) = some v)
    (hfresh : s.now - v.ts < s.cacheTTL) :
    run s (some q) = logEv s (.success none (normalizeQuery q) v.result true) := by
  unfold run
  dsimp only [Option.getD]
  rw [if_neg (by push_neg; exact ⟨hne, hlen⟩)]
  rw [getCached_hit s _ v huse hc (Nat.lt_asymm hfresh)]
  dsimp only
  rw [if_neg (by simp [logEv, href])]

/-- Witness for C6: the completed state `sDone` holds a fresh entry
for `"abcd"`; re-running it is a pure cache hit. -/
theorem claim6_cache_hit_short_circuit_witness :
    sDone.useCache = true ∧ sDone.refreshOnCache = false ∧
    normalizeQuery "abcd" ≠ "" ∧
    sDone.minLength ≤ (normalizeQuery "abcd").length ∧
    cacheGet sDone.cache (normalizeQuery "abcd") = some ⟨0, [⟨1⟩]⟩ ∧
    sDone.now - (0 : Nat) < sDone.cacheTTL ∧
    run sDone (some "abcd") =
      logEv sDone (.success none (normalizeQuery "abcd") [⟨1⟩] true) :=
  ⟨by decide, by decide, by decide, by decide, by decide, by decide,
   claim6_cache_hit_short_circuit sDone "abcd" ⟨0, [⟨1⟩]⟩ (by decide) (by decide)
     (by decide) (by decide) (by decide) (by decide)⟩

/-- C7: an input whose normalized query is shorter than `minLength` is
a complete no-op through `setText` — no callback (the log is unchanged),
no fetch (no pending attempt is created), and no debounce timer is left
armed — and likewise through `runImmediate`. -/
theorem claim7_length_gate_silent (s : St) (q : String)
    (h : (normalizeQuery q).length < s.minLength) :
    (setText s (some q)).log = s.log ∧ (setText s (some q)).pending = s.pending ∧
    (setText s (some q)).timerPending = false ∧
    (runImmediate s (some q)).log = s.log ∧
    (runImmediate s (some q)).pending = s.pending := by
  have hst : setText s (some q) = clearTimer { s with latestText := q } := by
    unfold setText schedule clearTimer
    dsimp only [Option.getD]
    rw [if_pos (Or.inr h)]
  have hri : runImmediate s (some q) = clearTimer { s with latestText := q } := by
    unfold runImmediate run clearTimer
    dsimp only [Option.getD]
    rw [if_pos (Or.inr h)]
  rw [hst, hri]
  exact ⟨rfl, rfl, rfl, rfl, rfl⟩

/-- Witness for C7: `"ab"` normalizes to length 2 below the default
`minLength` of 3 and is silently ignored. -/
theorem claim7_length_gate_silent_witness :
    (normalizeQuery "ab").length < sInit.minLength ∧
    ((setText sInit (some "ab")).log = sInit.log ∧
     (setText sInit (some "ab")).pending = sInit.pending ∧
     (setText sInit (some "ab")).timerPending = false ∧
     (runImmediate sInit (some "ab")).log = sInit.log ∧
     (runImmediate sInit (some "ab")).pending = sInit.pending) :=
  ⟨by decide, claim7_length_gate_silent sInit "ab" (by decide)⟩

/-- C3 counterexample: after a completed search for `"abcd"`
(`lastSearchedQuery = "abcd"`), `runImmediate("abcde")` — a 1-character
extension, which the near-duplicate filter in `schedule` would skip —
DOES invoke the injected fetch with `"abcde"`: `run` applies no
near-duplicate filter.  This refutes the claim that `runImmediate`
obeys the near-duplicate filter. -/
theorem claim3_counterexample :
    sDone.lastSearchedQuery = "abcd" ∧
    normalizeQuery "abcde" = "abcde" ∧
    natDiff (normalizeQuery "abcde").length sDone.lastSearchedQuery.length ≤ 1 ∧
    jsStartsWith (normalizeQuery "abcde") sDone.lastSearchedQuery = true ∧
    nearDupSkip (normalizeQuery "abcde") sDone.lastSearchedQuery = true ∧
    fetchedQueries (runImmediate sDone (some "abcde")) = ["abcd", "abcde"] := by
  decide

/-- C3 (amended): `runImmediate(text)` cancels any pending debounce
timer and runs synchronously, obeying the length gate, the cache
shortcut, and the in-flight dedup — but NOT the near-duplicate filter,
which lives only on the debounced `schedule` path.  In particular,
whenever the gate passes, the cache has no readable entry, and nothing
is in flight, the fetch is dispatched — with no condition whatsoever on
`lastSearchedQuery`, hence also for a 1-character extension of it. -/
theorem claim3_runImmediate_amended (s : St) (t : String)
    (hne : normalizeQuery t ≠ "") (hlen : s.minLength ≤ (normalizeQuery t).length)
    (hc : cacheGet s.cache (normalizeQuery t) = none) (hfl : s.inFlightQuery = none) :
    (runImmediate s (some t)).timerPending = false ∧
    fetchedQueries (runImmediate s (some t)) = fetchedQueries s ++ [normalizeQuery t] := by
  constructor
  · unfold runImmediate
    dsimp only [Option.getD]
    rw [run_timerPending]
    rfl
  · unfold runImmediate
    dsimp only [Option.getD]
    exact run_dispatches (clearTimer { s with latestText := t }) (some t) hne hlen
      (by show (getCached (clearTimer { s with latestText := t })
                  (normalizeQuery t)).2 = none
          rw [getCached_miss (clearTimer { s with latestText := t })
                (normalizeQuery t) hc]) hfl

/-- Witness for the amended C3, instantiated at the 1-character
extension `"abcde"` of the last dispatched query `"abcd"`. -/
theorem claim3_runImmediate_amended_witness :
    normalizeQuery "abcde" ≠ "" ∧
    sDone.minLength ≤ (normalizeQuery "abcde").length ∧
    cacheGet sDone.cache (normalizeQuery "abcde") = none ∧
    sDone.inFlightQuery = none ∧
    ((runImmediate sDone (some "abcde")).timerPending = false ∧
     fetchedQueries (runImmediate sDone (some "abcde")) =
       fetchedQueries sDone ++ [normalizeQuery "abcde"]) :=
  ⟨by decide, by decide, by decide, by decide,
   claim3_runImmediate_amended sDone "abcde" (by decide) (by decide) (by decide)
     (by decide)⟩

/-- C4 counterexample: `sDone` completed `"abcd"` at time 0; at time
100000 (past the 60000 ms TTL) the cached entry is expired, yet
re-submitting the identical `"abcd"` via `setText` arms no timer and
triggers no fetch: `schedule`'s exact-duplicate check
(`norm === lastSearchedQuery`) rejects it before the cache or the timer
is ever consulted.  This refutes the claim that an identical repeat
after TTL expiry triggers a real fetch. -/
theorem claim4_counterexample :
    cacheGet (tick sDone 100000).cache "abcd" = some ⟨0, [⟨1⟩]⟩ ∧
    (tick sDone 100000).cacheTTL < (tick sDone 100000).now - (0 : Nat) ∧
    (tick sDone 100000).lastSearchedQuery = "abcd" ∧
    (setText (tick sDone 100000) (some "abcd")).timerPending = false ∧
    fetchedQueries (timerFire (setText (tick sDone 100000) (some "abcd"))) =
      fetchedQueries sDone := by
  decide

/-- C4 (amended): an entry older than `cacheTTL` is treated as absent
on read, so a repeated query whose entry has expired triggers a real
fetch — provided the repeat passes `schedule`'s duplicate filters: its
normalized query must differ from `lastSearchedQuery` (i.e. some other
query completed in between), not be in flight, and not be a
near-duplicate of the last dispatched query.  A directly repeated
identical query is instead skipped by the exact-duplicate check before
the cache is consulted (see the counterexample). -/
theorem claim4_expired_cache_refetch (s : St) (q : String) (v : Entry)
    (hne : normalizeQuery q ≠ "") (hlen : s.minLength ≤ (normalizeQuery q).length)
    (hc : cacheGet s.cache (normalizeQuery q) = some v)
    (hexp : s.cacheTTL < s.now - v.ts)
    (hlast : normalizeQuery q ≠ s.lastSearchedQuery)
    (hfl : s.inFlightQuery = none)
    (hnd : nearDupSkip (normalizeQuery q) s.lastSearchedQuery = false) :
    (setText s (some q)).timerPending = true ∧
    fetchedQueries (timerFire (setText s (some q))) =
      fetchedQueries s ++ [normalizeQuery q] := by
  have hst : setText s (some q) = { s with latestText := q, timerPending := true } := by
    unfold setText schedule clearTimer
    dsimp only [Option.getD]
    rw [if_neg (by push_neg; exact ⟨hne, hlen⟩),
        if_neg (by push_neg; exact ⟨hlast, by simp [hfl]⟩),
        if_neg (by simp [hnd])]
  refine ⟨by rw [hst], ?_⟩
  rw [hst]
  unfold timerFire
  rw [if_pos rfl]
  exact run_dispatches
    (clearTimer { s with latestText := q, timerPending := true })
    (some ({ s with latestText := q, timerPending := true } : St).latestText)
    hne hlen
    (getCached_expired (clearTimer { s with latestText := q, timerPending := true })
      (normalizeQuery q) v hc hexp)
    hfl

/-- Witness for the amended C4: after a different query (`"mnop"`)
completed, the expired `"abcd"` entry (written at 0, now 100000) is
evicted on read and `"abcd"` is fetched again for real. -/
theorem claim4_expired_cache_refetch_witness :
    normalizeQuery "abcd" ≠ "" ∧
    (tick sDone2 100000).minLength ≤ (normalizeQuery "abcd").length ∧
    cacheGet (tick sDone2 100000).cache (normalizeQuery "abcd") = some ⟨0, [⟨1⟩]⟩ ∧
    (tick sDone2 100000).cacheTTL < (tick sDone2 100000).now - (0 : Nat) ∧
    normalizeQuery "abcd" ≠ (tick sDone2 100000).lastSearchedQuery ∧
    (tick sDone2 100000).inFlightQuery = none ∧
    nearDupSkip (normalizeQuery "abcd") (tick sDone2 100000).lastSearchedQuery = false ∧
    ((setText (tick sDone2 100000) (some "abcd")).timerPending = true ∧
     fetchedQueries (timerFire (setText (tick sDone2 100000) (some "abcd"))) =
       fetchedQueries (tick sDone2 100000) ++ [normalizeQuery "abcd"]) :=
  ⟨by decide, by decide, by decide, by decide, by decide, by decide, by decide,
   claim4_expired_cache_refetch (tick sDone2 100000) "abcd" ⟨0, [⟨1⟩]⟩ (by decide)
     (by decide) (by decide) (by decide) (by decide) (by decide) (by decide)⟩

/-- Cache lookup after `Map.set` of the same key. -/
theorem cacheGet_set (m : Cache) (k : String) (v : Entry) :
    cacheGet (cacheSet m k v) k = some v := by
  unfold cacheGet cacheSet
  rw [List.find?_cons_of_pos _ (by simp)]
  rfl

/-- Deleting an absent key is the identity. -/
theorem cacheDelete_of_absent (m : Cache) (k : String)
    (h : cacheGet m k = none) : cacheDelete m k = m := by
  unfold cacheGet at h
  unfold cacheDelete
  apply List.filter_eq_self.mpr
  intro p hp
  have h2 := List.find?_eq_none.mp (Option.map_eq_none'.mp h) p hp
  simpa [bne] using h2

/-- C8: `setText(a)` immediately followed by `setText(b)` (the timer
has not fired in between) never sends `a`'s normalized query to the
injected fetch: the two `setText` calls alone fetch nothing, and the
debounce timer firing afterwards produces at most one fetch, which
carries `b`'s normalized query (last-write-wins over the scheduled
text). -/
theorem claim8_last_write_wins (s : St) (a b : String)
    (hab : normalizeQuery a ≠ normalizeQuery b) :
    fetchedQueries (setText (setText s (some a)) (some b)) = fetchedQueries s ∧
    ∃ l, fetchedQueries (timerFire (setText (setText s (some a)) (some b))) =
           fetchedQueries s ++ l ∧
         l.length ≤ 1 ∧ normalizeQuery a ∉ l ∧ ∀ x ∈ l, x = normalizeQuery b := by
  have h1 : (setText s (some a)).log = s.log := (schedule_frame _).1
  have h2 : (setText (setText s (some a)) (some b)).log = s.log := by
    show (schedule _).log = s.log
    rw [(schedule_frame _).1]
    exact h1
  have h3 : (setText (setText s (some a)) (some b)).latestText = b := by
    show (schedule _).latestText = b
    rw [(schedule_frame _).2.2]
    rfl
  have hfq : fetchedQueries (setText (setText s (some a)) (some b)) = fetchedQueries s :=
    fetchedQueries_of_log h2
  refine ⟨hfq, ?_⟩
  by_cases hp : (setText (setText s (some a)) (some b)).timerPending = true
  · have htf : timerFire (setText (setText s (some a)) (some b)) =
        run (clearTimer (setText (setText s (some a)) (some b)))
          (some (setText (setText s (some a)) (some b)).latestText) := by
      unfold timerFire
      rw [if_pos hp]
    have hclog : fetchedQueries (clearTimer (setText (setText s (some a)) (some b))) =
        fetchedQueries s := fetchedQueries_of_log h2
    rcases run_fetched (clearTimer (setText (setText s (some a)) (some b)))
        (some (setText (setText s (some a)) (some b)).latestText) with hr | hr
    · exact ⟨[], by rw [htf, hr, hclog, List.append_nil], by simp, by simp, by simp⟩
    · refine ⟨[normalizeQuery b], ?_, by simp, by simp [hab], by simp⟩
      rw [htf, hr, hclog]
      dsimp only [Option.getD]
      rw [h3]
  · have htf : timerFire (setText (setText s (some a)) (some b)) =
        setText (setText s (some a)) (some b) := by
      unfold timerFire
      rw [if_neg hp]
    exact ⟨[], by rw [htf, hfq, List.append_nil], by simp, by simp, by simp⟩

/-- Witness for C8 with two unrelated queries. -/
theorem claim8_last_write_wins_witness :
    normalizeQuery "abcd" ≠ normalizeQuery "wxyz" ∧
    (fetchedQueries (setText (setText sInit (some "abcd")) (some "wxyz")) =
       fetchedQueries sInit ∧
     ∃ l, fetchedQueries (timerFire (setText (setText sInit (some "abcd")) (some "wxyz"))) =
            fetchedQueries sInit ++ l ∧
          l.length ≤ 1 ∧ normalizeQuery "abcd" ∉ l ∧ ∀ x ∈ l, x = normalizeQuery "wxyz") :=
  ⟨by decide, claim8_last_write_wins sInit "abcd" "wxyz" (by decide)⟩

/-- C9: a successful resolution that passes the sequence guard always
writes the result into the cache, with no `useCache` hypothesis — the
entry is stored (timestamped now) and, when the key was absent, the
cache grows by one; and `useCache := false` disables only reads:
`getCached` then reports absent without consulting or mutating the
map.  So `getState().cacheSize` can keep growing while `useCache` is
false. -/
theorem claim9_success_writes_cache (s : St) (i : Nat) (a : Attempt) (r : ResultList)
    (hget : s.pending.get? i = some a) (hfl : s.inFlightQuery = some a.norm)
    (hcur : a.mySeq = s.seq) :
    cacheGet (settle s i (.ok r)).cache a.norm = some ⟨s.now, r⟩ ∧
    (cacheGet s.cache a.norm = none →
      cacheSize (settle s i (.ok r)) = cacheSize s + 1) ∧
    getCached { s with useCache := false } a.norm =
      ({ s with useCache := false }, none) := by
  have hcache : (settle s i (.ok r)).cache = cacheSet s.cache a.norm ⟨s.now, r⟩ := by
    unfold settle
    rw [hget]
    dsimp only
    unfold thenOk
    rw [if_pos ⟨hfl, hcur⟩]
    have hcur2 : a.mySeq =
        (logEv
          { setCached { s with pending := s.pending.eraseIdx i } a.norm r with
            lastCompletedQuery := a.norm
            lastSearchedQuery := a.norm
            lastResult := some r } (.success (some a.mySeq) a.norm r false)).seq := hcur
    rw [((finallyStep_cases _ a).2 hcur2).2.2.1]
    rfl
  refine ⟨?_, ?_, ?_⟩
  · rw [hcache, cacheGet_set]
  · intro habs
    unfold cacheSize
    rw [hcache]
    unfold cacheSet
    rw [cacheDelete_of_absent _ _ habs]
    rfl
  · rfl

/-- Witness for C9: settling the in-flight attempt of `sA` writes the
cache entry for `"abcd"` and grows the (previously empty) cache. -/
theorem claim9_success_writes_cache_witness :
    sA.pending.get? 0 = some ⟨1, "abcd", 0⟩ ∧
    sA.inFlightQuery = some (Attempt.mk 1 "abcd" 0).norm ∧
    (Attempt.mk 1 "abcd" 0).mySeq = sA.seq ∧
    (cacheGet (settle sA 0 (.ok [⟨3⟩])).cache "abcd" = some ⟨sA.now, [⟨3⟩]⟩ ∧
     (cacheGet sA.cache "abcd" = none →
       cacheSize (settle sA 0 (.ok [⟨3⟩])) = cacheSize sA + 1) ∧
     getCached { sA with useCache := false } "abcd" =
       ({ sA with useCache := false }, none)) :=
  ⟨by decide, by decide, by decide,
   claim9_success_writes_cache sA 0 ⟨1, "abcd", 0⟩ [⟨3⟩] (by decide) (by decide)
     (by decide)⟩

/-- C10: `createOrchestrator(options)` throws (modelled as
`Except.error`) precisely when no function is supplied as
`options.fetch`, including a null/undefined `options`; on normal return
the fresh instance has fired no callback and dispatched no fetch (its
log and pending set are empty).  All other public operations of the
model are total functions, so this validation is the interface's only
throwing path. -/
theorem claim10_constructor_validation (o : Option InitOptions) :
    ((∃ s, createOrchestrator o = .ok s) ↔
      ∃ opts, o = some opts ∧ opts.fetch = true) ∧
    (∀ s, createOrchestrator o = .ok s → s.log = [] ∧ s.pending = []) := by
  cases o with
  | none =>
    refine ⟨⟨?_, ?_⟩, ?_⟩
    · rintro ⟨s, hs⟩
      exact absurd hs (by simp [createOrchestrator])
    · rintro ⟨opts, h, _⟩
      exact Option.noConfusion h
    · intro s hs
      exact absurd hs (by simp [createOrchestrator])
  | some opts =>
    by_cases hf : opts.fetch = true
    · refine ⟨⟨fun _ => ⟨opts, rfl, hf⟩, ?_⟩, ?_⟩
      · intro _
        exact ⟨initSt opts, by simp [createOrchestrator, hf]⟩
      · intro s hs
        have hs2 : initSt opts = s := by
          simpa [createOrchestrator, hf] using hs
        rw [← hs2]
        exact ⟨rfl, rfl⟩
    · refine ⟨⟨?_, ?_⟩, ?_⟩
      · rintro ⟨s, hs⟩
        exact absurd hs (by simp [createOrchestrator, hf])
      · rintro ⟨opts2, h, hfetch⟩
        cases h
        exact absurd hfetch hf
      · intro s hs
        exact absurd hs (by simp [createOrchestrator, hf])

/-- Witness for C10: default options with a function for `fetch`
construct successfully and start with an empty log and pending set. -/
theorem claim10_constructor_validation_witness :
    (∃ s, createOrchestrator (some ⟨true, none, none, none, none, none⟩) = .ok s) ∧
    ((initSt ⟨true, none, none, none, none, none⟩).log = [] ∧
     (initSt ⟨true, none, none, none, none, none⟩).pending = []) :=
  ⟨(claim10_constructor_validation (some ⟨true, none, none, none, none, none⟩)).1.mpr
     ⟨⟨true, none, none, none, none, none⟩, rfl, rfl⟩,
   (claim10_constructor_validation (some ⟨true, none, none, none, none, none⟩)).2
     (initSt ⟨true, none, none, none, none, none⟩) rfl⟩

end BackgroundSearch
